import Mathlib

/-!
Verification development for the greenlight-api request pipeline:
filter/pagination engine, token service, permission store, authentication
and authorization middleware, and the per-client rate limiter.
Go machine integers are modelled as unbounded Int with explicit wrapping
where overflow matters; database tables are modelled as lists of records;
time instants are Int nanoseconds.
-/

namespace Greenlight

/-! ### Validator

Modelled from the spec: the internal/validator package (Validator.New,
Check, Valid, and the PermittedValues helper used by ValidateFilters and
ValidateTokenPlainText) is not among the provided source files; only its
callers are. The spec describes it as a per-field error accumulator
(errors reported per-field, a check records a field error when its
condition fails) and PermittedValues as a full-string membership test in
the safe list (full-match, not substring or prefix). -/

structure Validator where
  errors : List (String × String)
  deriving Repr, DecidableEq

def Validator.New : Validator := ⟨[]⟩

def Validator.AddError (v : Validator) (key message : String) : Validator :=
  if v.errors.any (fun p => p.1 = key) then v else ⟨v.errors ++ [(key, message)]⟩

def Validator.Check (v : Validator) (ok : Bool) (key message : String) : Validator :=
  if ok then v else v.AddError key message

def Validator.Valid (v : Validator) : Bool := v.errors.isEmpty

/-- Modelled from the spec: full-string membership of a value in the safe
list, not substring or prefix matching. -/
def PermittedValues (value : String) (safelist : List String) : Bool :=
  safelist.contains value

/-! ### Filters (internal/data/filters.go) -/

structure Filters where
  Page : Int
  PageSize : Int
  SortKey : String  -- Go field Sort; renamed because Sort is a Lean keyword
  SortSafeList : List String
  deriving Repr, DecidableEq

/-- Go strings.HasPrefix(s, "-"): the first character is a dash. -/
def hasDash (s : String) : Bool :=
  match s.data with
  | [] => false
  | c :: _ => c = '-'

/-- Go strings.TrimPrefix for the fixed "-" argument: removes one leading
"-" when present, otherwise returns the string unchanged. -/
def trimDash (s : String) : String :=
  match s.data with
  | '-' :: rest => ⟨rest⟩
  | _ => s

/-- Filters.getSortColumn: iterate the safe list; on the first exact match
return the sort key with a single leading "-" stripped; if the loop falls
through, the Go code panics, modelled as none. -/
def Filters.getSortColumn (f : Filters) : Option String :=
  match f.SortSafeList.find? (fun safeValue => f.SortKey = safeValue) with
  | some _ => some (trimDash f.SortKey)
  | none => none

def Filters.getSortDirection (f : Filters) : String :=
  if hasDash f.SortKey then "DESC" else "ASC"

def Filters.getLimit (f : Filters) : Int := f.PageSize

/-- Two-complement wrap-around of a 64-bit Go int. -/
def wrap64 (x : Int) : Int := (x + 2 ^ 63) % 2 ^ 64 - 2 ^ 63

/-- Filters.getOffSet: (f.Page - 1) * f.PageSize computed in Go int
arithmetic (64-bit wrap-around). -/
def Filters.getOffSet (f : Filters) : Int :=
  wrap64 ((f.Page - 1) * f.PageSize)

def ValidateFilters (v : Validator) (f : Filters) : Validator :=
  ((((v.Check (decide (f.Page > 0)) "page" "must be greater than zero").Check
      (decide (f.Page ≤ 10000000)) "page" "must be a maximum of 10million").Check
      (decide (f.PageSize > 0)) "page_size" "must be greater than zero").Check
      (decide (f.PageSize ≤ 100)) "page_size" "must be a maximum of 100").Check
      (PermittedValues f.SortKey f.SortSafeList) "sort" "invalid sort value"

structure Metadata where
  CurrentPage : Int
  PageSize : Int
  TotalPages : Int
  TotalRecords : Int
  HasNext : Bool
  HasPrev : Bool
  deriving Repr, DecidableEq

/-- calculateMetadata from internal/data/filters.go; Go integer division
truncates toward zero, hence Int.tdiv, and the Go int addition in
totalRecords + pageSize - 1 as well as the division result wrap at the
64-bit boundary, hence wrap64. -/
def calculateMetadata (totalRecords page pageSize : Int) : Metadata :=
  if totalRecords = 0 then
    { CurrentPage := 0, PageSize := 0, TotalPages := 0, TotalRecords := 0
      HasNext := false, HasPrev := false }
  else
    let totalPages :=
      wrap64 (Int.tdiv (wrap64 (totalRecords + pageSize - 1)) pageSize)
    { CurrentPage := page, PageSize := pageSize, TotalPages := totalPages
      TotalRecords := totalRecords
      HasNext := decide (page < totalPages), HasPrev := decide (page > 1) }

/-! ### Token service and users (tokens.go, users.go)

The SHA-256 digest is abstracted as a hash function parameter
hashFn : String → H; its collision resistance is an explicit injectivity
hypothesis where a theorem needs it. The random 26-character secret from
rand.Text is a plaintext parameter. Time instants are Int nanoseconds. -/

def ScopeActivation : String := "activation"
def ScopeAuthentication : String := "authentication"

structure User where
  ID : String
  CreatedAt : Int
  Name : String
  Email : String
  PasswordHash : String
  Activated : Bool
  Version : Int
  deriving Repr, DecidableEq

structure Token (H : Type) where
  Plaintext : String
  hash : H
  UserID : String
  Expiry : Int
  Scope : String
  deriving Repr, DecidableEq

/-- One row of the tokens table: the persisted part of a Token. -/
structure TokenRec (H : Type) where
  hash : H
  userID : String
  expiry : Int
  scope : String
  deriving Repr, DecidableEq

/-- The database state visible to the token service: the tokens table and
the users table. -/
structure DB (H : Type) where
  tokens : List (TokenRec H)
  users : List User
  deriving Repr, DecidableEq

def generateToken {H : Type} (hashFn : String → H) (plaintext : String)
    (userID : String) (now ttl : Int) (scope : String) : Token H :=
  { Plaintext := plaintext, hash := hashFn plaintext, UserID := userID
    Expiry := now + ttl, Scope := scope }

/-- TokenModel.Insert: persist the digest, owner, expiry and scope. -/
def TokenModel.Insert {H : Type} (db : DB H) (t : Token H) : DB H :=
  { db with tokens := db.tokens ++ [⟨t.hash, t.UserID, t.Expiry, t.Scope⟩] }

/-- TokenModel.New: generateToken then Insert. -/
def TokenModel.New {H : Type} (hashFn : String → H) (db : DB H)
    (plaintext userID : String) (now ttl : Int) (scope : String) :
    Token H × DB H :=
  let token := generateToken hashFn plaintext userID now ttl scope
  (token, TokenModel.Insert db token)

inductive DbErr where
  | recordNotFound
  | other
  deriving Repr, DecidableEq

instance {ε α : Type} [DecidableEq ε] [DecidableEq α] : DecidableEq (Except ε α) :=
  fun x y =>
    match x, y with
    | .error e, .error f =>
      if h : e = f then .isTrue (h ▸ rfl)
      else .isFalse (fun hc => h (Except.noConfusion hc id))
    | .error _, .ok _ => .isFalse (fun hc => Except.noConfusion hc)
    | .ok _, .error _ => .isFalse (fun hc => Except.noConfusion hc)
    | .ok a, .ok b =>
      if h : a = b then .isTrue (h ▸ rfl)
      else .isFalse (fun hc => h (Except.noConfusion hc id))

/-- UserModel.GetForToken: hash the supplied plaintext and select the user
joined to a token row with that hash, the requested scope, and expiry
strictly after now; no row yields ErrRecordNotFound. -/
def UserModel.GetForToken {H : Type} [DecidableEq H] (hashFn : String → H)
    (db : DB H) (tokenScope tokenPlainText : String) (now : Int) :
    Except DbErr User :=
  let tokenHash := hashFn tokenPlainText
  match db.tokens.find? (fun t =>
      decide (t.hash = tokenHash ∧ t.scope = tokenScope ∧ now < t.expiry)) with
  | none => .error .recordNotFound
  | some t =>
    match db.users.find? (fun u => decide (u.ID = t.userID)) with
    | none => .error .recordNotFound
    | some u => .ok u

/-- ValidateTokenPlainText: the token must be nonempty and exactly 26
bytes long (Go len counts bytes, hence utf8ByteSize). -/
def ValidateTokenPlainText (v : Validator) (tokenPlaintext : String) : Validator :=
  (v.Check (decide (tokenPlaintext ≠ "")) "token" "must be provided").Check
    (decide (tokenPlaintext.utf8ByteSize = 26)) "token" "must be 26 bytes long"

/-! ### Permissions (permissions.go) -/

abbrev Permissions := List String

def Permissions.Include (p : Permissions) (code : String) : Bool :=
  List.contains p code

/-- PermissionModel.GetAllForUser given the rows the permission query
returns for the user: start from the nil slice and append each scanned
code. -/
def PermissionModel.GetAllForUser (rows : List String) : Except DbErr Permissions :=
  .ok (rows.foldl (fun permissions permission => permissions ++ [permission]) ([] : List String))

/-! ### Middleware (middleware.go)

The user attached to a request context: the AnonymousUser sentinel is a
distinguished non-nil value, modelled as its own constructor; pointer
equality with AnonymousUser becomes matching on that constructor. The
zero-valued fields of the Go sentinel give anonymous users Activated =
false and ID = "". -/

/-- Split a character list at every occurrence of sep, keeping empty
fields, exactly as Go strings.Split does. -/
def splitChars (sep : Char) : List Char → List (List Char)
  | [] => [[]]
  | c :: cs =>
    match splitChars sep cs with
    | [] => [[]]
    | g :: gs => if c = sep then [] :: g :: gs else (c :: g) :: gs

/-- Go strings.Split(s, " "). -/
def splitSpace (s : String) : List String :=
  (splitChars ' ' s.data).map (fun l => ⟨l⟩)

inductive CtxUser where
  | anonymousUser
  | user (u : User)
  deriving Repr, DecidableEq

def CtxUser.IsAnonymous : CtxUser → Bool
  | .anonymousUser => true
  | .user _ => false

def CtxUser.Activated : CtxUser → Bool
  | .anonymousUser => false
  | .user u => u.Activated

def CtxUser.ID : CtxUser → String
  | .anonymousUser => ""
  | .user u => u.ID

/-- The observable result of running a middleware-wrapped handler on one
request: either the next handler runs with the context user, or one of
the rejection responses is written. -/
inductive Outcome where
  | nextHandler (u : CtxUser)
  | invalidCredentials
  | invalidAuthenticationToken
  | authenticationRequired
  | inactiveAccount
  | notPermitted
  | serverError
  deriving Repr, DecidableEq

def requireAuthenticatedUser (next : CtxUser → Outcome) (u : CtxUser) : Outcome :=
  if u.IsAnonymous then .authenticationRequired else next u

def requireActivatedUser (next : CtxUser → Outcome) : CtxUser → Outcome :=
  requireAuthenticatedUser (fun u =>
    if !u.Activated then .inactiveAccount else next u)

/-- requirePermissions code: on top of the activated check, fetch the
permission set of the context user fresh from the store (getPerms models
app.models.Permissions.GetAllForUser) and test membership of code. -/
def requirePermissions (code : String)
    (getPerms : String → Except DbErr Permissions)
    (next : CtxUser → Outcome) : CtxUser → Outcome :=
  requireActivatedUser (fun u =>
    match getPerms u.ID with
    | .error _ => .serverError
    | .ok permissions =>
      if !permissions.Include code then .notPermitted else next u)

/-- authenticate: classify the Authorization header. Absent header ⇒
attach the anonymous sentinel and continue; not exactly two space-split
parts starting with "Bearer" ⇒ invalid credentials; token failing the
plaintext validation ⇒ invalid authentication token; otherwise look the
token up with the authentication scope and either reject (not found ⇒
invalid authentication token, other failure ⇒ server error) or attach the
resolved user and continue. -/
def authenticate {H : Type} [DecidableEq H] (hashFn : String → H) (db : DB H)
    (now : Int) (authorizationHeader : Option String)
    (next : CtxUser → Outcome) : Outcome :=
  match authorizationHeader with
  | none => next .anonymousUser
  | some header =>
    match splitSpace header with
    | [p0, token] =>
      if p0 ≠ "Bearer" then .invalidCredentials
      else
        let v := ValidateTokenPlainText Validator.New token
        if !v.Valid then .invalidAuthenticationToken
        else
          match UserModel.GetForToken hashFn db ScopeAuthentication token now with
          | .error .recordNotFound => .invalidAuthenticationToken
          | .error _ => .serverError
          | .ok u => next (.user u)
    | _ => .invalidCredentials

/-! ### Rate limiter (middleware.go rateLimit)

The per-client table is a map from resolved IP to client state; it is
modelled as an association list with unique keys updated in place. The
golang.org/x/time/rate limiter is abstracted: mkLimiter rps burst models
rate.NewLimiter, and allow models the state transition and verdict of
Limiter.Allow. -/

structure Client (L : Type) where
  limiter : L
  lastSeen : Int
  deriving Repr, DecidableEq

def lookupClient {L : Type} : List (String × Client L) → String → Option (Client L)
  | [], _ => none
  | p :: rest, ip => if p.1 = ip then some p.2 else lookupClient rest ip

def setClient {L : Type} : List (String × Client L) → String → Client L → List (String × Client L)
  | [], ip, c => [(ip, c)]
  | p :: rest, ip, c => if p.1 = ip then (ip, c) :: rest else p :: setClient rest ip c

/-- One pass of the rateLimit handler closure for a request from ip at
time now: create the entry with the configured limiter if missing (its
lastSeen starts at the zero value), set its lastSeen to now, then consult
the bucket; the Bool result is the admission verdict (false ⇒ the 429
response, true ⇒ the next handler runs). -/
def rateLimitStep {L : Type} (mkLimiter : Int → Int → L) (rps burst : Int)
    (allow : L → Bool × L) (clients : List (String × Client L))
    (ip : String) (now : Int) : List (String × Client L) × Bool :=
  let clients1 :=
    match lookupClient clients ip with
    | none => setClient clients ip ⟨mkLimiter rps burst, 0⟩
    | some _ => clients
  match lookupClient clients1 ip with
  | none => (clients1, false)
  | some c =>
    let verdict := allow c.limiter
    (setClient clients1 ip ⟨verdict.2, now⟩, verdict.1)

/-- time.Minute in nanoseconds: the sweep interval of the background
goroutine. -/
def sweepInterval : Int := 60 * 1000000000

/-- 3 * time.Minute in nanoseconds: the idle threshold. -/
def idleThreshold : Int := 3 * 60 * 1000000000

/-- One sweep of the background goroutine at time now: delete every entry
whose lastSeen is more than three minutes old (time.Since(lastSeen) >
3 * time.Minute). -/
def sweepClients {L : Type} (clients : List (String × Client L)) (now : Int) :
    List (String × Client L) :=
  clients.filter (fun p => decide (¬ now - p.2.lastSeen > idleThreshold))

/-! ## Helper lemmas -/

theorem Validator.AddError_Valid (v : Validator) (k m : String) :
    (v.AddError k m).Valid = false := by
  unfold Validator.AddError Validator.Valid
  split
  · next ha =>
    rcases List.any_eq_true.mp ha with ⟨p, hp, _⟩
    have hne : v.errors ≠ [] := by
      intro h0
      rw [h0] at hp
      exact absurd hp (List.not_mem_nil p)
    simpa [List.isEmpty_iff] using hne
  · simp [List.isEmpty_iff]

theorem Validator.Check_Valid (v : Validator) (ok : Bool) (k m : String) :
    (v.Check ok k m).Valid = (v.Valid && ok) := by
  cases ok with
  | true => simp [Validator.Check]
  | false => simp [Validator.Check, Validator.AddError_Valid]

theorem wrap64_eq_self (x : Int) (h1 : -(2 ^ 63) ≤ x) (h2 : x < 2 ^ 63) :
    wrap64 x = x := by
  unfold wrap64
  omega

/-! ## Claims -/

/-- C4 counterexample: the claim quantifies over every totalRecords ≥ 0,
but at totalRecords = 2^63 - 1 and pageSize = 2 the Go int sum
totalRecords + pageSize - 1 wraps to -2^63, so TotalPages is -2^62 while
the claimed ceiling is 2^62. -/
theorem C4_calculateMetadata_counterexample :
    (0 : Int) ≤ 9223372036854775807 ∧ (1 : Int) ≤ 2 ∧ (2 : Int) ≤ 100 ∧
    (9223372036854775807 : Int) ≠ 0 ∧
    (calculateMetadata 9223372036854775807 1 2).TotalPages =
      -4611686018427387904 ∧
    ⌈((9223372036854775807 : Int) : ℚ) / ((2 : Int) : ℚ)⌉ =
      4611686018427387904 ∧
    (-4611686018427387904 : Int) ≠ 4611686018427387904 := by
  refine ⟨by norm_num, by norm_num, by norm_num, by norm_num, by decide, ?_,
    by norm_num⟩
  rw [Int.ceil_eq_iff]
  norm_num

/-- C4 amended: for every totalRecords ≥ 0, every page, and every
pageSize in [1,100] such that the intermediate sum
totalRecords + pageSize - 1 stays below 2^63 (no 64-bit overflow),
calculateMetadata returns the all-zero Metadata when totalRecords = 0,
and otherwise CurrentPage = page, PageSize = pageSize,
TotalRecords = totalRecords, TotalPages = ceil(totalRecords / pageSize)
(stated as the rational ceiling), HasNext = (page < TotalPages) and
HasPrev = (page > 1). -/
theorem C4_calculateMetadata_amended (totalRecords page pageSize : Int)
    (htr : 0 ≤ totalRecords) (hps1 : 1 ≤ pageSize) (hps2 : pageSize ≤ 100)
    (hov : totalRecords + pageSize - 1 < 2 ^ 63) :
    (totalRecords = 0 → calculateMetadata totalRecords page pageSize =
      { CurrentPage := 0, PageSize := 0, TotalPages := 0, TotalRecords := 0
        HasNext := false, HasPrev := false }) ∧
    (totalRecords ≠ 0 →
      (calculateMetadata totalRecords page pageSize).CurrentPage = page ∧
      (calculateMetadata totalRecords page pageSize).PageSize = pageSize ∧
      (calculateMetadata totalRecords page pageSize).TotalRecords = totalRecords ∧
      (calculateMetadata totalRecords page pageSize).TotalPages =
        ⌈(totalRecords : ℚ) / (pageSize : ℚ)⌉ ∧
      ((calculateMetadata totalRecords page pageSize).HasNext = true ↔
        page < (calculateMetadata totalRecords page pageSize).TotalPages) ∧
      ((calculateMetadata totalRecords page pageSize).HasPrev = true ↔
        1 < page)) := by
  constructor
  · intro h0
    simp [calculateMetadata, h0]
  · intro hne
    have htr1 : 1 ≤ totalRecords := by omega
    have hsum : wrap64 (totalRecords + pageSize - 1) =
        totalRecords + pageSize - 1 :=
      wrap64_eq_self _ (by omega) (by omega)
    have hq := Int.ediv_add_emod (totalRecords + pageSize - 1) pageSize
    have hr0 : 0 ≤ (totalRecords + pageSize - 1) % pageSize :=
      Int.emod_nonneg _ (by omega)
    have hr1 : (totalRecords + pageSize - 1) % pageSize < pageSize :=
      Int.emod_lt_of_pos _ (by omega)
    have htd : (totalRecords + pageSize - 1).tdiv pageSize =
        (totalRecords + pageSize - 1) / pageSize :=
      Int.tdiv_eq_ediv (by omega) (by omega)
    have hq0 : 0 ≤ (totalRecords + pageSize - 1) / pageSize :=
      Int.ediv_nonneg (by omega) (by omega)
    have hqle : (totalRecords + pageSize - 1) / pageSize ≤
        totalRecords + pageSize - 1 :=
      Int.ediv_le_self _ (by omega)
    have houter : wrap64 ((totalRecords + pageSize - 1) / pageSize) =
        (totalRecords + pageSize - 1) / pageSize :=
      wrap64_eq_self _ (by omega) (by omega)
    have hlow : ((totalRecords + pageSize - 1) / pageSize - 1) * pageSize <
        totalRecords := by nlinarith [hq, hr0, hr1]
    have hhigh : totalRecords ≤
        ((totalRecords + pageSize - 1) / pageSize) * pageSize := by
      nlinarith [hq, hr0, hr1]
    have hpsQ : (0 : ℚ) < (pageSize : ℚ) := by
      exact_mod_cast (by omega : (0 : Int) < pageSize)
    have hceil : ⌈(totalRecords : ℚ) / (pageSize : ℚ)⌉ =
        (totalRecords + pageSize - 1) / pageSize := by
      rw [Int.ceil_eq_iff]
      constructor
      · rw [lt_div_iff₀ hpsQ]
        exact_mod_cast hlow
      · rw [div_le_iff₀ hpsQ]
        exact_mod_cast hhigh
    unfold calculateMetadata
    rw [if_neg hne, hsum, htd, houter]
    exact ⟨rfl, rfl, rfl, hceil.symm, by simp, by simp⟩

/-- C4 amended witness, instantiating the theorem at totalRecords = 10,
page = 2, pageSize = 3 (sum 12 far below 2^63). -/
theorem C4_calculateMetadata_amended_witness :
    (0 : Int) ≤ 10 ∧ (1 : Int) ≤ 3 ∧ (3 : Int) ≤ 100 ∧
    (10 : Int) + 3 - 1 < 2 ^ 63 ∧
    ((10 : Int) ≠ 0 →
      (calculateMetadata 10 2 3).CurrentPage = 2 ∧
      (calculateMetadata 10 2 3).PageSize = 3 ∧
      (calculateMetadata 10 2 3).TotalRecords = 10 ∧
      (calculateMetadata 10 2 3).TotalPages = ⌈(10 : ℚ) / (3 : ℚ)⌉ ∧
      ((calculateMetadata 10 2 3).HasNext = true ↔
        2 < (calculateMetadata 10 2 3).TotalPages) ∧
      ((calculateMetadata 10 2 3).HasPrev = true ↔ (1 : Int) < 2)) :=
  ⟨by norm_num, by norm_num, by norm_num, by norm_num,
    (C4_calculateMetadata_amended 10 2 3 (by norm_num) (by norm_num)
      (by norm_num) (by norm_num)).2⟩

/-- C5: starting from a fresh validator, ValidateFilters leaves a field
error (an invalid validator, rejecting the request) exactly when
Page < 1, Page > 10000000, PageSize < 1, PageSize > 100, or Sort is not
an exact full-string member of SortSafeList. -/
theorem validateFilters_valid_iff (f : Filters) :
    (ValidateFilters Validator.New f).Valid = true ↔
      (0 < f.Page ∧ f.Page ≤ 10000000 ∧ 0 < f.PageSize ∧ f.PageSize ≤ 100 ∧
        f.SortKey ∈ f.SortSafeList) := by
  simp only [ValidateFilters, Validator.Check_Valid]
  simp [Validator.New, Validator.Valid, PermittedValues, and_assoc]

theorem C5_validateFilters (f : Filters) :
    (ValidateFilters Validator.New f).Valid = false ↔
      (f.Page < 1 ∨ 10000000 < f.Page ∨ f.PageSize < 1 ∨ 100 < f.PageSize ∨
        f.SortKey ∉ f.SortSafeList) := by
  rw [Bool.eq_false_iff, Ne, validateFilters_valid_iff]
  constructor
  · intro h
    by_contra hc
    push_neg at hc
    obtain ⟨h1, h2, h3, h4, h5⟩ := hc
    exact h ⟨by omega, by omega, by omega, by omega, h5⟩
  · rintro (h | h | h | h | h) ⟨g1, g2, g3, g4, g5⟩
    · omega
    · omega
    · omega
    · omega
    · exact h g5

/-- C6: when Sort is an exact member of SortSafeList, getSortColumn
returns Sort with one leading dash stripped and does not reach the panic;
when Sort is not a member, the code panics (modelled as none), so under
the validated precondition the fatal branch is unreachable. -/
theorem C6_getSortColumn (f : Filters) :
    (f.SortKey ∈ f.SortSafeList →
      f.getSortColumn = some (trimDash f.SortKey)) ∧
    (f.SortKey ∉ f.SortSafeList → f.getSortColumn = none) := by
  constructor
  · intro h
    unfold Filters.getSortColumn
    cases hf : f.SortSafeList.find? (fun safeValue => f.SortKey = safeValue) with
    | none =>
      rw [List.find?_eq_none] at hf
      exact absurd (by simp) (hf _ h)
    | some x => rfl
  · intro h
    unfold Filters.getSortColumn
    rw [List.find?_eq_none.mpr]
    intro x hx
    simp only [decide_eq_true_eq]
    intro hc
    exact h (hc ▸ hx)

/-- C6 witness: a safe descending sort key resolves to the dash-stripped
column, and an unlisted key reaches the panic branch. -/
theorem C6_getSortColumn_witness :
    ("-id" ∈ ["id", "-id"] ∧
      (⟨1, 20, "-id", ["id", "-id"]⟩ : Filters).getSortColumn =
        some (trimDash "-id")) ∧
    ("year" ∉ ["id", "-id"] ∧
      (⟨1, 20, "year", ["id", "-id"]⟩ : Filters).getSortColumn = none) :=
  ⟨⟨by decide, (C6_getSortColumn ⟨1, 20, "-id", ["id", "-id"]⟩).1 (by decide)⟩,
    ⟨by decide, (C6_getSortColumn ⟨1, 20, "year", ["id", "-id"]⟩).2 (by decide)⟩⟩

/-- C9: for every Filters value within the validated bounds, getLimit is
PageSize, getOffSet is exactly the mathematical product
(Page - 1) * PageSize, which is nonnegative and at most 999999900, so the
64-bit computation never wraps. -/
theorem C9_pagination (f : Filters)
    (hp1 : 1 ≤ f.Page) (hp2 : f.Page ≤ 10000000)
    (hs1 : 1 ≤ f.PageSize) (hs2 : f.PageSize ≤ 100) :
    f.getLimit = f.PageSize ∧
    f.getOffSet = (f.Page - 1) * f.PageSize ∧
    0 ≤ (f.Page - 1) * f.PageSize ∧
    (f.Page - 1) * f.PageSize ≤ 999999900 := by
  have hnn : 0 ≤ (f.Page - 1) * f.PageSize :=
    mul_nonneg (by omega) (by omega)
  have hub : (f.Page - 1) * f.PageSize ≤ 999999900 := by
    calc (f.Page - 1) * f.PageSize ≤ 9999999 * f.PageSize :=
          mul_le_mul_of_nonneg_right
            (show f.Page - 1 ≤ 9999999 by omega)
            (show (0 : Int) ≤ f.PageSize by omega)
      _ ≤ 9999999 * 100 :=
          mul_le_mul_of_nonneg_left
            (show f.PageSize ≤ 100 by omega)
            (show (0 : Int) ≤ 9999999 by omega)
      _ = 999999900 := by norm_num
  refine ⟨rfl, ?_, hnn, hub⟩
  unfold Filters.getOffSet
  exact wrap64_eq_self _ (by omega) (by omega)

/-- C9 witness at Page = 10000000, PageSize = 100, the extreme corner. -/
theorem C9_pagination_witness :
    (1 : Int) ≤ 10000000 ∧ (10000000 : Int) ≤ 10000000 ∧
    (1 : Int) ≤ 100 ∧ (100 : Int) ≤ 100 ∧
    ((⟨10000000, 100, "id", ["id"]⟩ : Filters).getLimit = 100 ∧
      (⟨10000000, 100, "id", ["id"]⟩ : Filters).getOffSet =
        (10000000 - 1) * 100 ∧
      (0 : Int) ≤ (10000000 - 1) * 100 ∧
      ((10000000 : Int) - 1) * 100 ≤ 999999900) :=
  ⟨by norm_num, by norm_num, by norm_num, by norm_num,
    C9_pagination ⟨10000000, 100, "id", ["id"]⟩
      (by norm_num) (by norm_num) (by norm_num) (by norm_num)⟩

/-- C2: under requirePermissions(code) the checks run in the fixed order
authenticated, activated, permission membership, each short-circuiting:
an anonymous identity gets the authentication-required rejection; an
authenticated but non-activated identity gets the inactive-account
rejection; an activated identity whose fetched permission set lacks code
gets the not-permitted rejection; an activated identity holding code is
passed to the wrapped handler. -/
theorem C2_authorization_chain (code : String)
    (getPerms : String → Except DbErr Permissions)
    (next : CtxUser → Outcome) (u : CtxUser) :
    (u = .anonymousUser →
      requirePermissions code getPerms next u = .authenticationRequired) ∧
    (∀ w, u = .user w → w.Activated = false →
      requirePermissions code getPerms next u = .inactiveAccount) ∧
    (∀ w ps, u = .user w → w.Activated = true → getPerms w.ID = .ok ps →
      ps.Include code = false →
      requirePermissions code getPerms next u = .notPermitted) ∧
    (∀ w ps, u = .user w → w.Activated = true → getPerms w.ID = .ok ps →
      ps.Include code = true →
      requirePermissions code getPerms next u = next u) := by
  refine ⟨?_, ?_, ?_, ?_⟩
  · rintro rfl
    rfl
  · rintro w rfl hact
    simp [requirePermissions, requireActivatedUser, requireAuthenticatedUser,
      CtxUser.IsAnonymous, CtxUser.Activated, hact]
  · rintro w ps rfl hact hperms hinc
    simp [requirePermissions, requireActivatedUser, requireAuthenticatedUser,
      CtxUser.IsAnonymous, CtxUser.Activated, CtxUser.ID, hact, hperms, hinc]
  · rintro w ps rfl hact hperms hinc
    simp [requirePermissions, requireActivatedUser, requireAuthenticatedUser,
      CtxUser.IsAnonymous, CtxUser.Activated, CtxUser.ID, hact, hperms, hinc]

/-- Concrete activated user for witnesses. -/
def wActive : User := ⟨"u1", 0, "Alice", "alice@example.com", "hash1", true, 1⟩

/-- Concrete non-activated user for witnesses. -/
def wInactive : User := ⟨"u2", 0, "Bob", "bob@example.com", "hash2", false, 1⟩

/-- C2 witness: all four branches exercised at concrete identities with
the permission store granting movies:read to every user. -/
theorem C2_authorization_chain_witness :
    requirePermissions "movies:read" (fun _ => .ok ["movies:read"])
      Outcome.nextHandler .anonymousUser = .authenticationRequired ∧
    requirePermissions "movies:read" (fun _ => .ok ["movies:read"])
      Outcome.nextHandler (.user wInactive) = .inactiveAccount ∧
    requirePermissions "movies:write" (fun _ => .ok ["movies:read"])
      Outcome.nextHandler (.user wActive) = .notPermitted ∧
    requirePermissions "movies:read" (fun _ => .ok ["movies:read"])
      Outcome.nextHandler (.user wActive) =
        Outcome.nextHandler (.user wActive) :=
  ⟨(C2_authorization_chain "movies:read" (fun _ => .ok ["movies:read"])
      Outcome.nextHandler .anonymousUser).1 rfl,
    (C2_authorization_chain "movies:read" (fun _ => .ok ["movies:read"])
      Outcome.nextHandler (.user wInactive)).2.1 wInactive rfl rfl,
    (C2_authorization_chain "movies:write" (fun _ => .ok ["movies:read"])
      Outcome.nextHandler (.user wActive)).2.2.1 wActive ["movies:read"]
      rfl rfl rfl (by decide),
    (C2_authorization_chain "movies:read" (fun _ => .ok ["movies:read"])
      Outcome.nextHandler (.user wActive)).2.2.2 wActive ["movies:read"]
      rfl rfl rfl (by decide)⟩

/-- C10: the empty permission set — in particular the nil slice
GetAllForUser yields from zero rows — contains no code, so an activated
user whose lookup succeeds with that empty set is rejected as
not-permitted by requirePermissions, for every code. -/
theorem C10_empty_permissions (code : String) :
    Permissions.Include [] code = false ∧
    PermissionModel.GetAllForUser [] = .ok [] ∧
    (∀ (w : User) (next : CtxUser → Outcome), w.Activated = true →
      requirePermissions code (fun _ => PermissionModel.GetAllForUser [])
        next (.user w) = .notPermitted) := by
  refine ⟨rfl, rfl, ?_⟩
  intro w next hact
  simp [requirePermissions, requireActivatedUser, requireAuthenticatedUser,
    CtxUser.IsAnonymous, CtxUser.Activated, hact,
    PermissionModel.GetAllForUser, Permissions.Include]

/-- C10 witness at code = movies:read and a concrete activated user. -/
theorem C10_empty_permissions_witness :
    Permissions.Include [] "movies:read" = false ∧
    PermissionModel.GetAllForUser [] = .ok [] ∧
    wActive.Activated = true ∧
    requirePermissions "movies:read"
      (fun _ => PermissionModel.GetAllForUser [])
      Outcome.nextHandler (.user wActive) = .notPermitted :=
  ⟨(C10_empty_permissions "movies:read").1,
    (C10_empty_permissions "movies:read").2.1, rfl,
    (C10_empty_permissions "movies:read").2.2 wActive Outcome.nextHandler rfl⟩

theorem lookupClient_setClient_self {L : Type}
    (clients : List (String × Client L)) (ip : String) (c : Client L) :
    lookupClient (setClient clients ip c) ip = some c := by
  induction clients with
  | nil => simp [setClient, lookupClient]
  | cons p rest ih =>
    by_cases h : p.1 = ip
    · simp [setClient, lookupClient, h]
    · simp [setClient, lookupClient, h, ih]

/-- C7: when the limiter is enabled, one pass of the rateLimit handler
always leaves the per-client entry with lastSeen equal to the current
time — the update happens whether the request is then admitted or
rejected, since the final table does not depend on the verdict — and a
missing entry is first created with the configured limiter
(rate.NewLimiter rps burst); the verdict is the bucket decision taken on
that entry. -/
theorem C7_rateLimit_lastSeen {L : Type} (mkLimiter : Int → Int → L)
    (rps burst : Int) (allow : L → Bool × L)
    (clients : List (String × Client L)) (ip : String) (now : Int) :
    (lookupClient clients ip = none →
      lookupClient (rateLimitStep mkLimiter rps burst allow clients ip now).1 ip =
        some ⟨(allow (mkLimiter rps burst)).2, now⟩ ∧
      (rateLimitStep mkLimiter rps burst allow clients ip now).2 =
        (allow (mkLimiter rps burst)).1) ∧
    (∀ c0, lookupClient clients ip = some c0 →
      lookupClient (rateLimitStep mkLimiter rps burst allow clients ip now).1 ip =
        some ⟨(allow c0.limiter).2, now⟩ ∧
      (rateLimitStep mkLimiter rps burst allow clients ip now).2 =
        (allow c0.limiter).1) := by
  constructor
  · intro hmiss
    unfold rateLimitStep
    rw [hmiss]
    simp [lookupClient_setClient_self]
  · intro c0 hhit
    unfold rateLimitStep
    rw [hhit]
    simp [hhit, lookupClient_setClient_self]

/-- C7 witness: a fresh client and a returning client, with an integer
token-bucket model in which a request is admitted while tokens remain. -/
theorem C7_rateLimit_lastSeen_witness :
    (lookupClient ([] : List (String × Client Int)) "1.2.3.4" = none ∧
      lookupClient (rateLimitStep (fun rps burst => rps + burst) 2 4
          (fun l => (0 < l, l - 1)) [] "1.2.3.4" 77).1 "1.2.3.4" =
        some ⟨5, 77⟩ ∧
      (rateLimitStep (fun rps burst => rps + burst) 2 4
          (fun l => (0 < l, l - 1)) [] "1.2.3.4" 77).2 = true) ∧
    (lookupClient [("1.2.3.4", (⟨0, 11⟩ : Client Int))] "1.2.3.4" =
        some ⟨0, 11⟩ ∧
      lookupClient (rateLimitStep (fun rps burst => rps + burst) 2 4
          (fun l => (0 < l, l - 1)) [("1.2.3.4", ⟨0, 11⟩)] "1.2.3.4" 77).1
          "1.2.3.4" = some ⟨-1, 77⟩ ∧
      (rateLimitStep (fun rps burst => rps + burst) 2 4
          (fun l => (0 < l, l - 1)) [("1.2.3.4", ⟨0, 11⟩)] "1.2.3.4" 77).2 =
        false) :=
  ⟨⟨rfl,
      ((C7_rateLimit_lastSeen (fun rps burst => rps + burst) 2 4
          (fun l => (0 < l, l - 1)) [] "1.2.3.4" 77).1 rfl).1,
      ((C7_rateLimit_lastSeen (fun rps burst => rps + burst) 2 4
          (fun l => (0 < l, l - 1)) [] "1.2.3.4" 77).1 rfl).2⟩,
    ⟨rfl,
      ((C7_rateLimit_lastSeen (fun rps burst => rps + burst) 2 4
          (fun l => (0 < l, l - 1)) [("1.2.3.4", ⟨0, 11⟩)] "1.2.3.4" 77).2
          ⟨0, 11⟩ rfl).1,
      ((C7_rateLimit_lastSeen (fun rps burst => rps + burst) 2 4
          (fun l => (0 < l, l - 1)) [("1.2.3.4", ⟨0, 11⟩)] "1.2.3.4" 77).2
          ⟨0, 11⟩ rfl).2⟩⟩

theorem lookupClient_isSome_mem_keys {L : Type}
    (clients : List (String × Client L)) (ip : String) (c : Client L)
    (h : lookupClient clients ip = some c) : ip ∈ clients.map Prod.fst := by
  induction clients with
  | nil => simp [lookupClient] at h
  | cons q rest ih =>
    rw [lookupClient] at h
    by_cases hq : q.1 = ip
    · simp [← hq]
    · rw [if_neg hq] at h
      simp only [List.map_cons, List.mem_cons]
      exact Or.inr (ih h)

theorem lookupClient_none_sweep {L : Type}
    (clients : List (String × Client L)) (now : Int) (ip : String)
    (h : lookupClient clients ip = none) :
    lookupClient (sweepClients clients now) ip = none := by
  induction clients with
  | nil => simp [sweepClients, lookupClient]
  | cons p rest ih =>
    rw [lookupClient] at h
    by_cases hp : p.1 = ip
    · simp [hp] at h
    · rw [if_neg hp] at h
      unfold sweepClients at ih ⊢
      rw [List.filter_cons]
      split
      · rw [lookupClient, if_neg hp]
        exact ih h
      · exact ih h

/-- C8: the background sweep fires every sweepInterval (one minute) and
deletes exactly the entries older than idleThreshold (three minutes): an
entry survives the sweep iff it was present and its lastSeen lies within
the threshold; consequently, for a table with unique client keys, a
client untouched for longer than the threshold is absent after the
sweep, and a client touched within the threshold survives unchanged. -/
theorem C8_idle_eviction {L : Type} (clients : List (String × Client L))
    (now : Int) :
    sweepInterval = 60 * 1000000000 ∧
    idleThreshold = 3 * 60 * 1000000000 ∧
    (∀ (ip : String) (c : Client L),
      (ip, c) ∈ sweepClients clients now ↔
        ((ip, c) ∈ clients ∧ now - c.lastSeen ≤ idleThreshold)) ∧
    ((clients.map Prod.fst).Nodup →
      ∀ (ip : String) (c : Client L), lookupClient clients ip = some c →
        (idleThreshold < now - c.lastSeen →
          lookupClient (sweepClients clients now) ip = none) ∧
        (now - c.lastSeen ≤ idleThreshold →
          lookupClient (sweepClients clients now) ip = some c)) := by
  refine ⟨rfl, rfl, ?_, ?_⟩
  · intro ip c
    simp only [sweepClients, List.mem_filter, decide_eq_true_eq, not_lt]
  · intro hnd ip c hc
    induction clients with
    | nil => simp [lookupClient] at hc
    | cons p rest ih =>
      rw [lookupClient] at hc
      by_cases hp : p.1 = ip
      · rw [if_pos hp] at hc
        have hc2 : p.2 = c := by injection hc
        subst hp
        simp only [List.map_cons, List.nodup_cons] at hnd
        constructor
        · intro hstale
          unfold sweepClients
          rw [List.filter_cons, if_neg (by simp [hc2]; omega)]
          apply lookupClient_none_sweep
          cases hlk : lookupClient rest p.1 with
          | none => rfl
          | some c2 =>
            exact absurd (lookupClient_isSome_mem_keys rest p.1 c2 hlk) hnd.1
        · intro hfresh
          unfold sweepClients
          rw [List.filter_cons, if_pos (by simp [hc2]; omega)]
          rw [lookupClient, if_pos rfl, hc2]
      · rw [if_neg hp] at hc
        simp only [List.map_cons, List.nodup_cons] at hnd
        have ihr := ih hnd.2 hc
        constructor
        · intro hstale
          unfold sweepClients
          rw [List.filter_cons]
          split
          · rw [lookupClient, if_neg hp]
            exact (ihr.1 hstale)
          · exact (ihr.1 hstale)
        · intro hfresh
          unfold sweepClients
          rw [List.filter_cons]
          split
          · rw [lookupClient, if_neg hp]
            exact (ihr.2 hfresh)
          · exact (ihr.2 hfresh)

/-- C8 witness: with the threshold exceeded by one nanosecond the stale
client is evicted while the fresh client survives the same sweep. -/
theorem C8_idle_eviction_witness :
    idleThreshold < (180000000011 : Int) - 10 ∧
    (180000000011 : Int) - 179999999999 ≤ idleThreshold ∧
    lookupClient (sweepClients
      [("1.1.1.1", (⟨0, 10⟩ : Client Int)), ("2.2.2.2", ⟨0, 179999999999⟩)]
      180000000011) "1.1.1.1" = none ∧
    lookupClient (sweepClients
      [("1.1.1.1", (⟨0, 10⟩ : Client Int)), ("2.2.2.2", ⟨0, 179999999999⟩)]
      180000000011) "2.2.2.2" = some ⟨0, 179999999999⟩ :=
  ⟨by decide, by decide,
    (((C8_idle_eviction
        [("1.1.1.1", (⟨0, 10⟩ : Client Int)), ("2.2.2.2", ⟨0, 179999999999⟩)]
        180000000011).2.2.2 (by decide) "1.1.1.1" ⟨0, 10⟩ rfl).1 (by decide)),
    (((C8_idle_eviction
        [("1.1.1.1", (⟨0, 10⟩ : Client Int)), ("2.2.2.2", ⟨0, 179999999999⟩)]
        180000000011).2.2.2 (by decide) "2.2.2.2" ⟨0, 179999999999⟩ rfl).2
        (by decide))⟩

/-- C1: issuing a token (generateToken via TokenModel.New) into an empty
tokens table and validating its returned plaintext with the same scope
strictly before expiry returns the original owner; any plaintext
differing from the issued one (under collision-freeness of the digest,
stated as injectivity of hashFn) and any lookup at or after the expiry
instant return the record-not-found error. -/
theorem C1_token_roundtrip {H : Type} [DecidableEq H] (hashFn : String → H)
    (hinj : Function.Injective hashFn)
    (users : List User) (u : User) (ownerID plaintext scope : String)
    (now ttl lookupTime : Int) (_httl : 0 < ttl)
    (hu : users.find? (fun w => decide (w.ID = ownerID)) = some u) :
    (lookupTime < now + ttl →
      UserModel.GetForToken hashFn
        (TokenModel.New hashFn ⟨[], users⟩ plaintext ownerID now ttl scope).2
        scope
        (TokenModel.New hashFn ⟨[], users⟩ plaintext ownerID now ttl scope).1.Plaintext
        lookupTime = .ok u ∧ u.ID = ownerID) ∧
    (∀ tampered, tampered ≠ plaintext →
      UserModel.GetForToken hashFn
        (TokenModel.New hashFn ⟨[], users⟩ plaintext ownerID now ttl scope).2
        scope tampered lookupTime = .error .recordNotFound) ∧
    (now + ttl ≤ lookupTime →
      UserModel.GetForToken hashFn
        (TokenModel.New hashFn ⟨[], users⟩ plaintext ownerID now ttl scope).2
        scope
        (TokenModel.New hashFn ⟨[], users⟩ plaintext ownerID now ttl scope).1.Plaintext
        lookupTime = .error .recordNotFound) := by
  have hid : u.ID = ownerID := by
    have hp := List.find?_some hu
    simpa using hp
  refine ⟨?_, ?_, ?_⟩
  · intro hlive
    refine ⟨?_, hid⟩
    simp only [TokenModel.New, generateToken, TokenModel.Insert,
      UserModel.GetForToken, List.nil_append, List.find?, hlive]
    simp [hlive, hu]
  · intro tampered htam
    have hne : hashFn plaintext ≠ hashFn tampered := fun h => htam (hinj h).symm
    simp only [TokenModel.New, generateToken, TokenModel.Insert,
      UserModel.GetForToken, List.nil_append, List.find?]
    simp [hne]
  · intro hexp
    have hnl : ¬ lookupTime < now + ttl := by omega
    simp only [TokenModel.New, generateToken, TokenModel.Insert,
      UserModel.GetForToken, List.nil_append, List.find?]
    simp [hnl]

/-- C1 witness: a concrete 26-character secret issued to user u1 at time
0 with ttl 100 validates at time 50, a one-character tampering fails, and
validation at the expiry instant 100 fails. -/
theorem C1_token_roundtrip_witness :
    ((0 : Int) < 100 ∧
      [wActive].find? (fun w => decide (w.ID = "u1")) = some wActive ∧
      (50 : Int) < 0 + 100 ∧
      "Xbcdefghijklmnopqrstuvwxyz" ≠ "abcdefghijklmnopqrstuvwxyz" ∧
      (0 : Int) + 100 ≤ 100) ∧
    (UserModel.GetForToken (fun s => s)
        (TokenModel.New (fun s => s) ⟨[], [wActive]⟩
          "abcdefghijklmnopqrstuvwxyz" "u1" 0 100 "authentication").2
        "authentication"
        (TokenModel.New (fun s => s) ⟨[], [wActive]⟩
          "abcdefghijklmnopqrstuvwxyz" "u1" 0 100 "authentication").1.Plaintext
        50 = .ok wActive ∧ wActive.ID = "u1") ∧
    UserModel.GetForToken (fun s => s)
      (TokenModel.New (fun s => s) ⟨[], [wActive]⟩
        "abcdefghijklmnopqrstuvwxyz" "u1" 0 100 "authentication").2
      "authentication" "Xbcdefghijklmnopqrstuvwxyz" 50 =
        .error .recordNotFound ∧
    UserModel.GetForToken (fun s => s)
      (TokenModel.New (fun s => s) ⟨[], [wActive]⟩
        "abcdefghijklmnopqrstuvwxyz" "u1" 0 100 "authentication").2
      "authentication"
      (TokenModel.New (fun s => s) ⟨[], [wActive]⟩
        "abcdefghijklmnopqrstuvwxyz" "u1" 0 100 "authentication").1.Plaintext
      100 = .error .recordNotFound :=
  ⟨⟨by decide, by decide, by decide, by decide, by decide⟩,
    (C1_token_roundtrip (fun s => s) (fun _ _ h => h) [wActive] wActive
      "u1" "abcdefghijklmnopqrstuvwxyz" "authentication" 0 100 50
      (by decide) (by decide)).1 (by decide),
    (C1_token_roundtrip (fun s => s) (fun _ _ h => h) [wActive] wActive
      "u1" "abcdefghijklmnopqrstuvwxyz" "authentication" 0 100 50
      (by decide) (by decide)).2.1 "Xbcdefghijklmnopqrstuvwxyz" (by decide),
    (C1_token_roundtrip (fun s => s) (fun _ _ h => h) [wActive] wActive
      "u1" "abcdefghijklmnopqrstuvwxyz" "authentication" 0 100 100
      (by decide) (by decide)).2.2 (by decide)⟩

/-- A user and a database holding a token row whose stored digest is the
digest of the three-character plaintext abc (scope authentication, expiry
10), exercising the pre-lookup plaintext validation of authenticate. -/
def cexUser : User := ⟨"u1", 0, "Alice", "alice@example.com", "hash1", true, 1⟩

def cexDB : DB String := ⟨[⟨"abc", "u1", 10, "authentication"⟩], [cexUser]⟩

/-- C3 counterexample: a request whose bearer token abc has a successful
unexpired authentication-scope lookup (GetForToken returns the user) is
nonetheless rejected by authenticate as an invalid authentication token,
because the 26-byte plaintext validation runs before the lookup — the
claim says such a request attaches the resolved user and invokes the next
handler. -/
theorem C3_authenticate_counterexample :
    UserModel.GetForToken (fun s => s) cexDB ScopeAuthentication "abc" 0 =
      .ok cexUser ∧
    splitSpace "Bearer abc" = ["Bearer", "abc"] ∧
    authenticate (fun s => s) cexDB 0 (some "Bearer abc")
      Outcome.nextHandler = .invalidAuthenticationToken ∧
    authenticate (fun s => s) cexDB 0 (some "Bearer abc")
      Outcome.nextHandler ≠ Outcome.nextHandler (.user cexUser) := by
  refine ⟨by decide, by decide, by decide, by decide⟩

/-- C3 amended: authenticate classifies requests as the claim states,
except that a well-formed Bearer header whose token fails the plaintext
validation (empty or not exactly 26 bytes) is rejected as an invalid
authentication token before any lookup; the lookup-based cases apply as
claimed, the successful-lookup case only for tokens passing that
validation. -/
theorem C3_authenticate_amended {H : Type} [DecidableEq H]
    (hashFn : String → H) (db : DB H) (now : Int)
    (next : CtxUser → Outcome) :
    (authenticate hashFn db now none next = next .anonymousUser) ∧
    (∀ header, (¬ ∃ p0 token, splitSpace header = [p0, token]) →
      authenticate hashFn db now (some header) next = .invalidCredentials) ∧
    (∀ header p0 token, splitSpace header = [p0, token] → p0 ≠ "Bearer" →
      authenticate hashFn db now (some header) next = .invalidCredentials) ∧
    (∀ header token, splitSpace header = ["Bearer", token] →
      (ValidateTokenPlainText Validator.New token).Valid = false →
      authenticate hashFn db now (some header) next =
        .invalidAuthenticationToken) ∧
    (∀ header token, splitSpace header = ["Bearer", token] →
      UserModel.GetForToken hashFn db ScopeAuthentication token now =
        .error .recordNotFound →
      authenticate hashFn db now (some header) next =
        .invalidAuthenticationToken) ∧
    (∀ header token u, splitSpace header = ["Bearer", token] →
      (ValidateTokenPlainText Validator.New token).Valid = true →
      UserModel.GetForToken hashFn db ScopeAuthentication token now = .ok u →
      authenticate hashFn db now (some header) next = next (.user u)) := by
  refine ⟨rfl, ?_, ?_, ?_, ?_, ?_⟩
  · intro header hsh
    simp only [authenticate]
    cases hsp : splitSpace header with
    | nil => rfl
    | cons a rest =>
      cases rest with
      | nil => rfl
      | cons b rest2 =>
        cases rest2 with
        | nil => exact absurd ⟨a, b, hsp⟩ hsh
        | cons c rest3 => rfl
  · intro header p0 token hsp hp0
    simp only [authenticate]
    rw [hsp]
    simp [hp0]
  · intro header token hsp hval
    simp only [authenticate]
    rw [hsp]
    simp [hval]
  · intro header token hsp hnf
    simp only [authenticate]
    rw [hsp]
    by_cases hval : (ValidateTokenPlainText Validator.New token).Valid = true
    · simp [hval, hnf]
    · simp [Bool.eq_false_iff.mpr hval]
  · intro header token u hsp hval hok
    simp only [authenticate]
    rw [hsp]
    simp [hval, hok]

/-- C3 amended witness: all six branches at concrete headers against a
database holding one valid 26-character authentication token for u1. -/
theorem C3_authenticate_amended_witness :
    (authenticate (fun s => s)
        (⟨[⟨"abcdefghijklmnopqrstuvwxyz", "u1", 100, "authentication"⟩],
          [wActive]⟩ : DB String) 50 none Outcome.nextHandler =
      Outcome.nextHandler .anonymousUser) ∧
    (authenticate (fun s => s)
        (⟨[⟨"abcdefghijklmnopqrstuvwxyz", "u1", 100, "authentication"⟩],
          [wActive]⟩ : DB String) 50 (some "Bearer a b") Outcome.nextHandler =
      .invalidCredentials) ∧
    (authenticate (fun s => s)
        (⟨[⟨"abcdefghijklmnopqrstuvwxyz", "u1", 100, "authentication"⟩],
          [wActive]⟩ : DB String) 50 (some "Basic abc") Outcome.nextHandler =
      .invalidCredentials) ∧
    (authenticate (fun s => s)
        (⟨[⟨"abcdefghijklmnopqrstuvwxyz", "u1", 100, "authentication"⟩],
          [wActive]⟩ : DB String) 50 (some "Bearer abc") Outcome.nextHandler =
      .invalidAuthenticationToken) ∧
    (authenticate (fun s => s)
        (⟨[⟨"abcdefghijklmnopqrstuvwxyz", "u1", 100, "authentication"⟩],
          [wActive]⟩ : DB String) 50
        (some "Bearer Xbcdefghijklmnopqrstuvwxyz") Outcome.nextHandler =
      .invalidAuthenticationToken) ∧
    (authenticate (fun s => s)
        (⟨[⟨"abcdefghijklmnopqrstuvwxyz", "u1", 100, "authentication"⟩],
          [wActive]⟩ : DB String) 50
        (some "Bearer abcdefghijklmnopqrstuvwxyz") Outcome.nextHandler =
      Outcome.nextHandler (.user wActive)) :=
  ⟨(C3_authenticate_amended (fun s => s) _ 50 Outcome.nextHandler).1,
    (C3_authenticate_amended (fun s => s) _ 50 Outcome.nextHandler).2.1
      "Bearer a b" (by
        rintro ⟨p0, token, h⟩
        rw [show splitSpace "Bearer a b" = ["Bearer", "a", "b"] from by decide] at h
        simp at h),
    (C3_authenticate_amended (fun s => s) _ 50 Outcome.nextHandler).2.2.1
      "Basic abc" "Basic" "abc" (by decide) (by decide),
    (C3_authenticate_amended (fun s => s) _ 50 Outcome.nextHandler).2.2.2.1
      "Bearer abc" "abc" (by decide) (by decide),
    (C3_authenticate_amended (fun s => s) _ 50 Outcome.nextHandler).2.2.2.2.1
      "Bearer Xbcdefghijklmnopqrstuvwxyz" "Xbcdefghijklmnopqrstuvwxyz"
      (by decide) (by decide),
    (C3_authenticate_amended (fun s => s) _ 50 Outcome.nextHandler).2.2.2.2.2
      "Bearer abcdefghijklmnopqrstuvwxyz" "abcdefghijklmnopqrstuvwxyz"
      wActive (by decide) (by decide) (by decide)⟩

end Greenlight
